import Mathlib

/-!
Shallow embedding of the PebbleDB entry store (src/src/pebbledb) and proofs about
its specification claims.

Conventions of the embedding:
* Python dynamically typed JSON-like values become the inductive type PValue.
* Python dict objects become insertion-ordered association lists; assignment
  replaces the first binding in place or appends a fresh one, exactly as a
  Python dict preserves key order.
* The mutable `_data` dictionary of a container is modelled by the structure
  DataDict: the field `entries` is `none` exactly when the "entries" key is
  absent, `Entries.total` is `none` exactly when the "total" key is absent,
  and `hasTopValues` records whether a literal "values" key exists at the TOP
  level of `_data` (the `get` methods test exactly that).
* `datetime.now()` is an external effect; every operation that consults it in
  the source receives the timestamp as an explicit argument (ISO strings).
* Raised Python exceptions become Except results; operations that mutate state
  before raising return the mutated state alongside the error.
-/

namespace PebbleDB

/-- A dynamically typed value, as stored in PebbleDB documents (Python Any
restricted to the JSON-like values the store manipulates). -/
inductive PValue where
  | null
  | bool (b : Bool)
  | int (n : Int)
  | str (s : String)
  | list (xs : List PValue)
  | dict (d : List (String × PValue))

/-- A Python dict from string keys to values, as an insertion-ordered
association list. -/
abbrev PDict := List (String × PValue)

/-- Python exceptions that the modelled code can raise. -/
inductive PyError where
  | keyError (k : String)
  | typeError (msg : String)
  | valueError (msg : String)
  | attributeError (msg : String)
  | fileNotFound (p : String)
deriving DecidableEq

/-- Dedicated commit-failure error (PebbleCommitError in core/utils.py). -/
inductive CommitError where
  | commitError
deriving DecidableEq

/-- Python `d[k]` lookup on a dict: first binding for the key, if any. -/
def alget {α : Type} (d : List (String × α)) (k : String) : Option α :=
  match d with
  | [] => none
  | (k1, v) :: rest => if k1 = k then some v else alget rest k

/-- Python `d[k] = v`: replace the existing binding in place (keeping its
position) or append a fresh binding. -/
def alset {α : Type} (d : List (String × α)) (k : String) (v : α) :
    List (String × α) :=
  match d with
  | [] => [(k, v)]
  | (k1, v1) :: rest =>
      if k1 = k then (k1, v) :: rest else (k1, v1) :: alset rest k v

/-- Python `d.pop(k, default)`: drop the binding for the key, if present. -/
def alremove {α : Type} (d : List (String × α)) (k : String) :
    List (String × α) :=
  match d with
  | [] => []
  | (k1, v1) :: rest =>
      if k1 = k then rest else (k1, v1) :: alremove rest k

/-- Python `d.update(upd)`: assign every binding of upd into d, in order. -/
def alupdate {α : Type} (d upd : List (String × α)) : List (String × α) :=
  upd.foldl (fun acc kv => alset acc kv.1 kv.2) d

/-- Python truthiness `bool(v)` for the modelled values. -/
def truthy : PValue → Bool
  | .null => false
  | .bool b => b
  | .int n => n != 0
  | .str s => s != ""
  | .list xs => !xs.isEmpty
  | .dict d => !d.isEmpty

mutual
/-- Python structural equality (==) between modelled values. Dict equality is
modelled as ordered equality of the binding lists; all values the claims
compare are scalars, for which this coincides with Python ==. -/
def pveq : PValue → PValue → Bool
  | .null, .null => true
  | .bool a, .bool b => a == b
  | .int a, .int b => a == b
  | .str a, .str b => a == b
  | .list xs, .list ys => pveqList xs ys
  | .dict xs, .dict ys => pveqDict xs ys
  | _, _ => false

/-- Elementwise Python == on lists of values. -/
def pveqList : List PValue → List PValue → Bool
  | [], [] => true
  | x :: xs, y :: ys => pveq x y && pveqList xs ys
  | _, _ => false

/-- Elementwise Python == on binding lists. -/
def pveqDict : List (String × PValue) → List (String × PValue) → Bool
  | [], [] => true
  | (k, x) :: xs, (l, y) :: ys => k == l && pveq x y && pveqDict xs ys
  | _, _ => false
end

/-- The "entries" sub-dictionary of a container data dict: the stored "total"
value when that key is present, and the "values" map from identifier strings
to stored entries. -/
structure Entries where
  total : Option Int
  values : List (String × PValue)

/-- The `_data` instance dictionary of a container. Only the keys the modelled
operations touch are represented: the "entries" key (absent when `entries` is
`none`) and the presence of a TOP-LEVEL "values" key, which the broken checks
in `get` and `_get` consult. -/
structure DataDict where
  entries : Option Entries
  hasTopValues : Bool

namespace DataDict

/-- The `if "entries" not in self._data` initialisation block shared by the
container operations (table.py 662-668 and elsewhere). -/
def ensure (d : DataDict) : DataDict :=
  match d.entries with
  | none => { d with entries := some { total := some 0, values := [] } }
  | some _ => d

/-- The `total` property getter (table.py 416-442, database.py 321-347): after
ensuring "entries" exists, a missing "total" key is initialised to 0 and
returned; otherwise the stored total is overwritten with the current size of
the "values" dict and returned. Returns the value and the mutated data dict. -/
def totalGet (d : DataDict) : Int × DataDict :=
  let d := d.ensure
  match d.entries with
  | some e =>
      match e.total with
      | none => (0, { d with entries := some { e with total := some 0 } })
      | some _ =>
          ((e.values.length : Int),
           { d with entries := some { e with total := some (e.values.length : Int) } })
  | none => (0, d)

/-- The `total` property setter (table.py 444-481, database.py 349-378): after
ensuring "entries" and "total" exist, stores the passed value. -/
def totalSet (d : DataDict) (v : Int) : DataDict :=
  let d := d.ensure
  match d.entries with
  | some e => { d with entries := some { e with total := some v } }
  | none => d

/-- The current contents of the "values" map (observer used by theorems). -/
def valuesOf (d : DataDict) : List (String × PValue) :=
  match d.entries with
  | some e => e.values
  | none => []

/-- Body shared by PebbleTable.insert (table.py 646-691) and
PebbleDatabase._insert (database.py 477-527), identical in both files: ensure
"entries", take the identifier as str(self.total), stamp the entry with
"_added_at", store it, then execute `self.total = self.total + 1`. The source
returns int(identifier); this model returns the decimal identifier string
itself, which is the key the entry is stored under. -/
def insertData (d : DataDict) (entry : PDict) (timestamp : String) :
    String × DataDict :=
  let d := d.ensure
  let (tot, d) := d.totalGet
  let identifier := toString tot
  let entry := alset entry "_added_at" (.str timestamp)
  let d :=
    match d.entries with
    | some e => { d with entries := some { e with values := alset e.values identifier (.dict entry) } }
    | none => d
  let (tot2, d) := d.totalGet
  let d := d.totalSet (tot2 + 1)
  (identifier, d)

/-- Body shared by PebbleTable.get (table.py 554-576) and
PebbleDatabase._get (database.py 410-432): the source tests
`if "values" not in self._data` against the TOP level of `_data` (not against
`_data["entries"]`), so on an ordinary container the test fails and
`self._data["entries"]["values"] = dict()` erases every stored entry before the
lookup raises KeyError. Returns the lookup outcome together with the possibly
mutated data dict. -/
def getData (d : DataDict) (identifier : String) :
    Except PyError PValue × DataDict :=
  if d.hasTopValues then
    match d.entries with
    | some e =>
        (match alget e.values identifier with
         | some v => .ok v
         | none => .error (.keyError identifier), d)
    | none => (.error (.keyError "entries"), d)
  else
    match d.entries with
    | none => (.error (.keyError "entries"), d)
    | some e =>
        let d := { d with entries := some { e with values := [] } }
        (.error (.keyError identifier), d)

/-- Body shared by PebbleTable.remove (table.py 752-790) and
PebbleDatabase.remove (database.py 836-869): pop the identifier with default
False, coerce the popped value through bool(), then execute
`self.total = self.total + 1` (the same increment as insertion, noted in the
spec as a likely copy-paste defect; the next total read recomputes from the
length of "values" anyway). Raises KeyError("entries") when the data dict has
no "entries" key, as the attribute chain in the source would. -/
def removeData (d : DataDict) (identifier : String) :
    Except PyError (Bool × DataDict) :=
  match d.entries with
  | none => .error (.keyError "entries")
  | some e =>
      let result :=
        match alget e.values identifier with
        | some v => truthy v
        | none => false
      let d := { d with entries := some { e with values := alremove e.values identifier } }
      let (tot, d) := d.totalGet
      let d := d.totalSet (tot + 1)
      .ok (result, d)

end DataDict

/-- In-memory state of a PebbleTable instance (table.py 30-108). The datetime
fields are ISO strings; the logger is external and not represented. -/
structure PebbleTable where
  created_at : String
  database : String
  data : DataDict
  definition : List (String × PValue)
  identifier : String
  metadata : List (String × PValue)
  name : String
  path : String
  updated_at : String

/-- In-memory state of a PebbleDatabase instance (database.py 31-94). -/
structure PebbleDatabase where
  created_at : String
  data : DataDict
  identifier : String
  metadata : List (String × PValue)
  name : String
  path : String
  updated_at : String

namespace PebbleTable

/-- PebbleTable.insert (table.py 646-691). The timestamp argument models the
`timestamp or datetime.now()` default. -/
def insert (t : PebbleTable) (entry : PDict) (is_bulk_operation : Bool)
    (timestamp : String) : String × PebbleTable :=
  let (identifier, d) := t.data.insertData entry timestamp
  let t := { t with data := d }
  (identifier, if is_bulk_operation then t else { t with updated_at := timestamp })

/-- PebbleTable.get (table.py 554-576); see DataDict.getData for the wiping
behaviour of the top-level "values" check. -/
def get (t : PebbleTable) (identifier : String) :
    Except PyError PValue × PebbleTable :=
  let (r, d) := t.data.getData identifier
  (r, { t with data := d })

/-- PebbleTable.remove (table.py 752-790). -/
def remove (t : PebbleTable) (identifier : String) (is_bulk_operation : Bool)
    (timestamp : String) : Except PyError (Bool × PebbleTable) :=
  match t.data.removeData identifier with
  | .error e => .error e
  | .ok (result, d) =>
      let t := { t with data := d }
      .ok (result, if is_bulk_operation then t else { t with updated_at := timestamp })

/-- PebbleTable.remove_in_bulk (table.py 792-842): removes each identifier
under one shared timestamp, collecting each False result in the errors list.
After the loop, `if errors and not all(errors)` holds whenever any removal
returned False, and the source then evaluates the f-string argument of a
ValueError it never raises; that evaluation runs `", ".join(errors)` over a
list of False booleans, which raises TypeError. -/
def remove_in_bulk (t : PebbleTable) (identifiers : List String)
    (timestamp : String) : Except PyError (Bool × PebbleTable) := do
  let mut t := t
  let mut total_result : List Bool := []
  let mut errors : List Bool := []
  for identifier in identifiers do
    let (result, t2) ← t.remove identifier true timestamp
    t := t2
    if !result then
      errors := errors ++ [result]
    total_result := total_result ++ [result]
  if !errors.isEmpty && !(errors.all (fun b => b)) then
    throw (.typeError "sequence item 0: expected str instance, bool found")
  return (total_result.all (fun b => b), t)

/-- PebbleTable.update (table.py 898-935): KeyError when the identifier is
absent, otherwise `values[identifier].update(entry)` merges the partial entry
field by field into the stored entry; a stored value that is not a dict would
fail the attribute lookup of update. -/
def update (t : PebbleTable) (entry : PDict) (identifier : String)
    (is_bulk_operation : Bool) (timestamp : String) :
    Except PyError (Bool × PebbleTable) :=
  match t.data.entries with
  | none => .error (.keyError "entries")
  | some e =>
      match alget e.values identifier with
      | none => .error (.keyError identifier)
      | some (.dict stored) =>
          let values := alset e.values identifier (.dict (alupdate stored entry))
          let t := { t with data := { t.data with entries := some { e with values := values } } }
          .ok (true, if is_bulk_operation then t else { t with updated_at := timestamp })
      | some _ => .error (.attributeError "update")

/-- PebbleTable.set_metadata (table.py 844-861): `self.metadata` is the
property returning `dict(self._metadata)`, a fresh copy, and the subscript
assignment lands in that copy, which is then discarded; the stored metadata
dictionary is untouched. -/
def set_metadata (t : PebbleTable) (key : String) (value : PValue) : PebbleTable :=
  let copy := t.metadata
  let _updatedCopy := alset copy key value
  t

/-- PebbleTable.get_metadata (table.py 624-644). -/
def get_metadata (t : PebbleTable) (key : String) (dflt : PValue) : PValue :=
  (alget t.metadata key).getD dflt

/-- The `entries` property (table.py 304-322): ensure "entries" exists, return
a copy of the "values" dict. -/
def entriesProp (t : PebbleTable) : List (String × PValue) × PebbleTable :=
  let d := t.data.ensure
  (d.valuesOf, { t with data := d })

/-- PebbleTable.to_dict (table.py 874-896): the canonical snapshot; reading
`self.total` and `self.entries` normalizes the data dict. -/
def to_dict (t : PebbleTable) : PDict × PebbleTable :=
  let (tot, d) := t.data.totalGet
  let t := { t with data := d }
  let (vals, t) := t.entriesProp
  ([("created_at", .str t.created_at),
    ("database", .str t.database),
    ("definition", .dict t.definition),
    ("entries", .dict [("total", .int tot), ("values", .dict vals)]),
    ("identifier", .str t.identifier),
    ("metadata", .dict t.metadata),
    ("name", .str t.name),
    ("path", .str t.path),
    ("updated_at", .str t.updated_at)], t)

end PebbleTable

namespace PebbleDatabase

/-- PebbleDatabase._insert (database.py 477-527); its body is the insert body
of the table with one extra vacuous `"values" not in self._data["entries"]`
check (the model always carries a "values" map inside Entries). -/
def insertDb (t : PebbleDatabase) (entry : PDict) (is_bulk_operation : Bool)
    (timestamp : String) : String × PebbleDatabase :=
  let (identifier, d) := t.data.insertData entry timestamp
  let t := { t with data := d }
  (identifier, if is_bulk_operation then t else { t with updated_at := timestamp })

/-- PebbleDatabase._get (database.py 410-432): same top-level "values" check
slip as PebbleTable.get. -/
def getDb (t : PebbleDatabase) (identifier : String) :
    Except PyError PValue × PebbleDatabase :=
  let (r, d) := t.data.getData identifier
  (r, { t with data := d })

/-- PebbleDatabase.remove (database.py 836-869). -/
def remove (t : PebbleDatabase) (identifier : String) (is_bulk_operation : Bool)
    (timestamp : String) : Except PyError (Bool × PebbleDatabase) :=
  match t.data.removeData identifier with
  | .error e => .error e
  | .ok (result, d) =>
      let t := { t with data := d }
      .ok (result, if is_bulk_operation then t else { t with updated_at := timestamp })

/-- PebbleDatabase.remove_in_bulk (database.py 871-921): identical failure
path to the table variant (TypeError raised while formatting the message of a
ValueError that is itself never raised), but this variant does advance
updated_at after the loop. -/
def remove_in_bulk (t : PebbleDatabase) (identifiers : List String)
    (timestamp : String) : Except PyError (Bool × PebbleDatabase) := do
  let mut t := t
  let mut total_result : List Bool := []
  let mut errors : List Bool := []
  for identifier in identifiers do
    let (result, t2) ← t.remove identifier true timestamp
    t := t2
    if !result then
      errors := errors ++ [result]
    total_result := total_result ++ [result]
  if !errors.isEmpty && !(errors.all (fun b => b)) then
    throw (.typeError "sequence item 0: expected str instance, bool found")
  t := { t with updated_at := timestamp }
  return (total_result.all (fun b => b), t)

/-- PebbleDatabase.update (database.py 975-1012): KeyError when the identifier
is absent; otherwise the source executes
`self._data["entries"]["values"].update(entry)`, which merges the partial
entry into the VALUES MAP ITSELF, leaving the entry stored under the
identifier untouched and adding the fields of the partial entry as top-level
bindings of the values map. -/
def update (t : PebbleDatabase) (entry : PDict) (identifier : String)
    (is_bulk_operation : Bool) (timestamp : String) :
    Except PyError (Bool × PebbleDatabase) :=
  match t.data.entries with
  | none => .error (.keyError "entries")
  | some e =>
      match alget e.values identifier with
      | none => .error (.keyError identifier)
      | some _ =>
          let values := alupdate e.values entry
          let t := { t with data := { t.data with entries := some { e with values := values } } }
          .ok (true, if is_bulk_operation then t else { t with updated_at := timestamp })

/-- PebbleDatabase.set_metadata (database.py 923-940): writes into the copy
returned by the metadata property (database.py 267-277) and discards it. -/
def set_metadata (t : PebbleDatabase) (key : String) (value : PValue) :
    PebbleDatabase :=
  let copy := t.metadata
  let _updatedCopy := alset copy key value
  t

/-- PebbleDatabase.get_metadata (database.py 694-714). -/
def get_metadata (t : PebbleDatabase) (key : String) (dflt : PValue) : PValue :=
  (alget t.metadata key).getD dflt

/-- The `entries` property (database.py 236-253). -/
def entriesProp (t : PebbleDatabase) : List (String × PValue) × PebbleDatabase :=
  let d := t.data.ensure
  (d.valuesOf, { t with data := d })

/-- PebbleDatabase.to_dict (database.py 953-973). -/
def to_dict (t : PebbleDatabase) : PDict × PebbleDatabase :=
  let (tot, d) := t.data.totalGet
  let t := { t with data := d }
  let (vals, t) := t.entriesProp
  ([("created_at", .str t.created_at),
    ("entries", .dict [("total", .int tot), ("values", .dict vals)]),
    ("identifier", .str t.identifier),
    ("metadata", .dict t.metadata),
    ("name", .str t.name),
    ("path", .str t.path),
    ("updated_at", .str t.updated_at)], t)

end PebbleDatabase

mutual
/-- merge_dicts (utils/utils.py 204-252): result starts as a copy of old, then
every binding of new is folded in via mergeKey. The accumulator threading
mirrors the source loop over new.items(). -/
def merge_dicts : PDict → PDict → PDict
  | [], old => old
  | (k, nv) :: rest, old => merge_dicts rest (mergeKey old k nv)

/-- One iteration of the merge_dicts loop body (utils/utils.py 222-250): a key
whose current value is absent OR None takes the new value (dict .get conflates
the two); when both the current and the new value are dicts they are merged
recursively; otherwise the new value wins. -/
def mergeKey (old : PDict) (k : String) (nv : PValue) : PDict :=
  match alget old k with
  | none => alset old k nv
  | some PValue.null => alset old k nv
  | some ov =>
      match ov, nv with
      | PValue.dict od, PValue.dict nd => alset old k (PValue.dict (merge_dicts nd od))
      | _, _ => alset old k nv
end

/-- Per-key merge outcome written from the words of the specification (spec.md
section 4.2, step 3): a key untouched by the snapshot keeps the prior value, a
key absent from the prior state takes the new value, two nested key-value
structures merge recursively, and otherwise the new value wins at the leaf.
Used to compare merge_dicts against the specified behaviour. -/
def mergeSpec : Option PValue → Option PValue → Option PValue
  | none, oldVal => oldVal
  | some nv, none => some nv
  | some nv, some PValue.null => some nv
  | some (PValue.dict nd), some (PValue.dict od) => some (.dict (merge_dicts nd od))
  | some nv, some _ => some nv

/-- File-system state consumed by the commit service and the loaders: a map
from path strings to file contents, plus which paths accept writes. A file
content of `none` stands for the empty string (as produced by create_file);
`some doc` stands for the serialized form of the document doc. The external
DataConversionUtils serialize and deserialize pair is modelled as the identity
on documents, per the spec contract for external collaborators. -/
structure FS where
  files : List (String × Option PValue)
  writable : String → Bool

namespace FS

/-- Path.exists(). -/
def pathExists (fs : FS) (p : String) : Bool :=
  (alget fs.files p).isSome

/-- create_file (files.py 48-77): opens the path for writing an empty string;
returns False instead of raising when the path rejects writes. -/
def create_file (fs : FS) (p : String) : FS × Bool :=
  if fs.writable p then ({ fs with files := alset fs.files p none }, true)
  else (fs, false)

/-- read_file (files.py 136-162): the file content, or the empty string when
the file is missing or unreadable. -/
def read_file (fs : FS) (p : String) : Option PValue :=
  match alget fs.files p with
  | some c => c
  | none => none

/-- read_file_if_not_exists (files.py 165-187): create the file when absent,
then read it. -/
def read_file_if_not_exists (fs : FS) (p : String) : FS × Option PValue :=
  let fs := if fs.pathExists p then fs else (fs.create_file p).1
  (fs, fs.read_file p)

/-- write_file (files.py 190-221): returns False instead of raising when the
path rejects writes. -/
def write_file (fs : FS) (p : String) (content : PValue) : FS × Bool :=
  if fs.writable p then ({ fs with files := alset fs.files p (some content) }, true)
  else (fs, false)

/-- write_file_if_not_exists (files.py 224-252). -/
def write_file_if_not_exists (fs : FS) (p : String) (content : PValue) :
    FS × Bool :=
  let fs := if fs.pathExists p then fs else (fs.create_file p).1
  fs.write_file p content

/-- Path.rename(target) used by the commit service: raises FileNotFoundError
when the source path does not exist, otherwise moves its content over the
target. -/
def renameFile (fs : FS) (src dst : String) : Except PyError FS :=
  match alget fs.files src with
  | none => .error (.fileNotFound src)
  | some c => .ok { fs with files := alset (alremove fs.files src) dst c }

end FS

/-- Left-to-right scan replacing every occurrence of ".json" by "_tmp.json"
without rescanning the replacement, the semantics of Python str.replace. -/
def replaceJson : List Char → List Char
  | '.' :: 'j' :: 's' :: 'o' :: 'n' :: rest => ("_tmp.json".data) ++ replaceJson rest
  | c :: rest => c :: replaceJson rest
  | [] => []

/-- The `path.replace(".json", "_tmp.json")` expression of the commit service
(core/utils.py 92-97). -/
def tmpPath (p : String) : String :=
  ⟨replaceJson p.data⟩

/-- PebbleCommitService.commit (core/utils.py 50-123). The snapshot is the
dict produced by to_dict, whose "path" value this model keeps as a string, as
the commit service itself assumes (it calls str.replace on it and wraps it in
Path). Any exception escaping the try block is logged and re-raised as the
dedicated commit error; the boolean results of the write primitives are
ignored by the source, so a write that merely reports failure does NOT reach
the except branch. Returns the possibly updated file system and either
success or the commit error. -/
def PebbleCommitService.commit (database_or_table : PDict) (fs : FS) :
    FS × Except CommitError Unit :=
  match alget database_or_table "path" with
  | some (.str p) =>
      let (fs, s) := fs.read_file_if_not_exists p
      match s with
      | none =>
          let (fs, _ok) := fs.write_file_if_not_exists p (.dict database_or_table)
          (fs, .ok ())
      | some old =>
          match old with
          | .dict oldDict =>
              let merged := merge_dicts database_or_table oldDict
              let temporary := tmpPath p
              let (fs, _ok) := fs.write_file_if_not_exists temporary (.dict merged)
              match fs.renameFile temporary p with
              | .ok fs2 => (fs2, .ok ())
              | .error _ => (fs, .error .commitError)
          | _ => (fs, .error .commitError)
  | _ => (fs, .error .commitError)

/-- PebbleDatabaseLoader.load (database.py 1578-1614): FileNotFoundError when
the path does not exist; otherwise read, deserialize, and construct the
database directly, taking the data dict as the "entries" sub-document of the
file. An empty or non-dict file content makes deserialization fail. -/
def PebbleDatabaseLoader.load (fs : FS) (path : String) (now : String) :
    Except PyError PebbleDatabase :=
  if !(fs.pathExists path) then .error (.fileNotFound path)
  else
    match fs.read_file path with
    | none => .error (.typeError "deserialize")
    | some (.dict d) =>
        let entriesData : DataDict :=
          { entries :=
              match alget d "entries" with
              | some (.dict ed) =>
                  some { total := match alget ed "total" with
                                  | some (.int n) => some n
                                  | _ => none,
                         values := match alget ed "values" with
                                   | some (.dict vs) => vs
                                   | _ => [] }
              | _ => some { total := none, values := [] },
            hasTopValues := false }
        .ok { created_at := match alget d "created_at" with
                            | some (.str s) => s
                            | _ => now,
              data := entriesData,
              identifier := match alget d "identifier" with
                            | some (.str s) => s
                            | _ => "",
              metadata := match alget d "metadata" with
                          | some (.dict m) => m
                          | _ => [],
              name := match alget d "name" with
                      | some (.str s) => s
                      | _ => "",
              path := path,
              updated_at := match alget d "updated_at" with
                            | some (.str s) => s
                            | _ => now }
    | some _ => .error (.typeError "deserialize")

/-- PebbleTableBuilder.with_data (table.py 1319-1353): an empty (falsy) value
is replaced by the default entries skeleton; then the "total" key is set to
the size of the "values" dict. A nonempty value lacking the "entries" key
raises KeyError. -/
def with_dataConfig (v : PValue) : Except PyError DataDict :=
  match v with
  | .dict [] =>
      .ok { entries := some { total := some 0, values := [] }, hasTopValues := false }
  | .dict dd =>
      match alget dd "entries" with
      | some (.dict ed) =>
          let values := match alget ed "values" with
                        | some (.dict vs) => vs
                        | _ => []
          .ok { entries := some { total := some (values.length : Int), values := values },
                hasTopValues := (alget dd "values").isSome }
      | _ => .error (.keyError "entries")
  | _ => .error (.typeError "data")

/-- PebbleTableLoader.load (table.py 1585-1632), composed with the builder
steps it performs (table.py 1266-1577) and PebbleTableFactory.create
(table.py 1009-1071). Notable consequences, all taken from the source:
with_data receives the value of the key "data" of the file, which to_dict
never writes, so the loaded table always starts from the default empty
entries skeleton; with_database raises ValueError when the stored database
string is empty; with_path sees the already-set name and rewrites the path to
path/name.json; and the PebbleTable constructor sets updated_at to now
regardless of the value passed (table.py 107-108). The now and freshUuid
arguments model datetime.now() and uuid4 consulted when fields are absent. -/
def PebbleTableLoader.load (fs : FS) (path : String) (now freshUuid : String) :
    Except PyError PebbleTable :=
  if !(fs.pathExists path) then .error (.fileNotFound path)
  else
    match fs.read_file path with
    | none => .error (.typeError "deserialize")
    | some (.dict d) => do
        let created_at := match alget d "created_at" with
                          | some (.str s) => s
                          | _ => now
        let dataDict ← with_dataConfig (match alget d "data" with
                                        | some v => v
                                        | none => .dict [])
        let database := match alget d "database" with
                        | some (.str s) => s
                        | _ => ""
        if database = "" then
          throw (.valueError "The database string value cannot be empty.")
        let definition := match alget d "definition" with
                          | some (.dict dd) => dd
                          | _ => []
        let identifier := match alget d "identifier" with
                          | some (.str s) => s
                          | _ => freshUuid
        let metadata := match alget d "metadata" with
                        | some (.dict m) => m
                        | _ => []
        let name := match alget d "name" with
                    | some (.str s) => s
                    | _ => ""
        let tablePath := path ++ "/" ++ name ++ ".json"
        return { created_at := created_at,
                 database := database,
                 data := dataDict,
                 definition := definition,
                 identifier := identifier,
                 metadata := metadata,
                 name := name,
                 path := tablePath,
                 updated_at := now }
    | some _ => .error (.typeError "deserialize")

/-- Python membership `value in seen` via structural equality. -/
def pvmem (v : PValue) (l : List PValue) : Bool :=
  l.any (fun s => pveq v s)

/-- Loop of PebbleUniqueConstraint.validate (constraints.py 691-728) with the
seen set carried explicitly: entries whose field value is absent or None are
skipped; the first value already seen short-circuits to False. -/
def validateAux (field : String) (seen : List PValue) :
    List PDict → Bool
  | [] => true
  | entry :: rest =>
      match alget entry field with
      | none => validateAux field seen rest
      | some PValue.null => validateAux field seen rest
      | some v => if pvmem v seen then false else validateAux field (v :: seen) rest

/-- PebbleUniqueConstraint.validate (constraints.py 691-728). -/
def PebbleUniqueConstraint.validate (field : String) (entries : List PDict) : Bool :=
  validateAux field [] entries

/-- The non-null values of the given field across a batch of entries, in
order (entries where the field is absent or None are dropped). -/
def fieldVals (field : String) : List PDict → List PValue
  | [] => []
  | entry :: rest =>
      match alget entry field with
      | none => fieldVals field rest
      | some PValue.null => fieldVals field rest
      | some v => v :: fieldVals field rest

/-- Whether some later element of the list equals (Python ==) an earlier one. -/
def hasDupVals : List PValue → Bool
  | [] => false
  | v :: rest => rest.any (fun w => pveq w v) || hasDupVals rest

/-- Tail-style rendering of the validate loop over the already-extracted
non-null field values, used to factor the correctness proof of the unique
constraint. -/
def dupCheck : List PValue → List PValue → Bool
  | [], _ => true
  | v :: rest, seen => if pvmem v seen then false else dupCheck rest (v :: seen)

section AssocLemmas

variable {α : Type}

theorem alget_alset_self (d : List (String × α)) (k : String) (v : α) :
    alget (alset d k v) k = some v := by
  induction d with
  | nil => simp [alset, alget]
  | cons hd tl ih =>
      obtain ⟨k1, v1⟩ := hd
      by_cases h : k1 = k
      · simp [alset, alget, h]
      · simp [alset, alget, h, ih]

theorem alget_alset_ne (d : List (String × α)) (k1 k : String) (v : α)
    (h : k1 ≠ k) : alget (alset d k1 v) k = alget d k := by
  induction d with
  | nil => simp [alset, alget, h]
  | cons hd tl ih =>
      obtain ⟨k2, v2⟩ := hd
      by_cases h2 : k2 = k1
      · subst h2
        simp [alset, alget, h]
      · simp only [alset, if_neg h2]
        by_cases h3 : k2 = k
        · simp [alget, h3]
        · simp [alget, h3, ih]

theorem alremove_notin (d : List (String × α)) (k : String) :
    alget d k = none → alremove d k = d := by
  induction d with
  | nil => intro _; rfl
  | cons hd tl ih =>
      obtain ⟨k1, v1⟩ := hd
      intro h
      simp only [alget] at h
      by_cases h1 : k1 = k
      · rw [if_pos h1] at h; exact absurd h (by simp)
      · rw [if_neg h1] at h
        simp only [alremove, if_neg h1, ih h]

end AssocLemmas

theorem alget_mergeKey_ne (old : PDict) (k1 k : String) (nv : PValue)
    (h : k1 ≠ k) : alget (mergeKey old k1 nv) k = alget old k := by
  rw [mergeKey]
  split
  · exact alget_alset_ne old k1 k nv h
  · exact alget_alset_ne old k1 k nv h
  · split
    · exact alget_alset_ne old k1 k _ h
    · exact alget_alset_ne old k1 k nv h

theorem alget_mergeKey_self (old : PDict) (k : String) (nv : PValue) :
    alget (mergeKey old k nv) k = mergeSpec (some nv) (alget old k) := by
  rw [mergeKey]
  rcases h0 : alget old k with _ | ov
  · simp [mergeSpec, alget_alset_self]
  · cases ov <;> cases nv <;>
      simp [mergeSpec, alget_alset_self]

theorem merge_dicts_notin (new : PDict) (k : String)
    (h : k ∉ new.map Prod.fst) :
    ∀ old : PDict, alget (merge_dicts new old) k = alget old k := by
  induction new with
  | nil => intro old; rw [merge_dicts]
  | cons hd rest ih =>
      intro old
      obtain ⟨k1, nv⟩ := hd
      simp only [List.map_cons, List.mem_cons] at h
      push_neg at h
      have hne : k1 ≠ k := fun he => h.1 he.symm
      rw [merge_dicts, ih h.2, alget_mergeKey_ne old k1 k nv hne]

theorem merge_dicts_alget (new : PDict) (k : String)
    (hnd : (new.map Prod.fst).Nodup) :
    ∀ old : PDict, alget (merge_dicts new old) k = mergeSpec (alget new k) (alget old k) := by
  induction new with
  | nil => intro old; rw [merge_dicts]; simp [alget, mergeSpec]
  | cons hd rest ih =>
      intro old
      obtain ⟨k1, nv⟩ := hd
      simp only [List.map_cons, List.nodup_cons] at hnd
      by_cases hk : k1 = k
      · subst hk
        rw [merge_dicts, merge_dicts_notin rest k1 hnd.1, alget_mergeKey_self]
        simp [alget]
      · have hnew : alget ((k1, nv) :: rest) k = alget rest k := by simp [alget, hk]
        rw [merge_dicts, ih hnd.2, hnew, alget_mergeKey_ne old k1 k nv hk]

theorem validateAux_cons (field : String) (seen : List PValue) (entry : PDict)
    (rest : List PDict) :
    validateAux field seen (entry :: rest) =
      match alget entry field with
      | none => validateAux field seen rest
      | some PValue.null => validateAux field seen rest
      | some v => if pvmem v seen then false else validateAux field (v :: seen) rest := rfl

theorem fieldVals_cons (field : String) (entry : PDict) (rest : List PDict) :
    fieldVals field (entry :: rest) =
      match alget entry field with
      | none => fieldVals field rest
      | some PValue.null => fieldVals field rest
      | some v => v :: fieldVals field rest := rfl

theorem validateAux_eq_dupCheck (field : String) (es : List PDict) :
    ∀ seen, validateAux field seen es = dupCheck (fieldVals field es) seen := by
  induction es with
  | nil => intro seen; rfl
  | cons entry rest ih =>
      intro seen
      rcases h : alget entry field with _ | v
      · simp only [validateAux_cons, fieldVals_cons, h]
        exact ih seen
      · cases v
        case null =>
          simp only [validateAux_cons, fieldVals_cons, h]
          exact ih seen
        all_goals
          simp only [validateAux_cons, fieldVals_cons, h, dupCheck]
          rw [ih]

theorem pvmem_cons (w v : PValue) (seen : List PValue) :
    pvmem w (v :: seen) = (pveq w v || pvmem w seen) := by
  simp [pvmem]

theorem dupCheck_eq_false_iff (vs : List PValue) :
    ∀ seen, dupCheck vs seen = false ↔
      (∃ v ∈ vs, pvmem v seen = true) ∨ hasDupVals vs = true := by
  induction vs with
  | nil => intro seen; simp [dupCheck, hasDupVals]
  | cons v rest ih =>
      intro seen
      rw [dupCheck]
      by_cases hm : pvmem v seen
      · simp only [hm, if_true]
        constructor
        · intro _; exact Or.inl ⟨v, List.mem_cons_self v rest, hm⟩
        · intro _; trivial
      · rw [if_neg hm, ih (v :: seen)]
        constructor
        · rintro (⟨w, hw, hmem⟩ | hdup)
          · rw [pvmem_cons] at hmem
            rcases Bool.or_eq_true_iff.mp hmem with hq | hs
            · refine Or.inr ?_
              rw [hasDupVals]
              exact Bool.or_eq_true_iff.mpr (Or.inl (List.any_eq_true.mpr ⟨w, hw, hq⟩))
            · exact Or.inl ⟨w, List.mem_cons_of_mem v hw, hs⟩
          · refine Or.inr ?_
            rw [hasDupVals]
            exact Bool.or_eq_true_iff.mpr (Or.inr hdup)
        · rintro (⟨w, hw, hmem⟩ | hdup)
          · rcases List.mem_cons.mp hw with rfl | hw2
            · exact absurd hmem (by simpa using hm)
            · exact Or.inl ⟨w, hw2, by rw [pvmem_cons, hmem, Bool.or_true]⟩
          · rw [hasDupVals] at hdup
            rcases Bool.or_eq_true_iff.mp hdup with hany | hrest
            · obtain ⟨w, hw, hq⟩ := List.any_eq_true.mp hany
              exact Or.inl ⟨w, hw, by rw [pvmem_cons, hq, Bool.true_or]⟩
            · exact Or.inr hrest

theorem hasDupVals_iff (vs : List PValue) :
    hasDupVals vs = true ↔
      ∃ (l1 : List PValue) (v : PValue) (l2 : List PValue) (w : PValue)
        (l3 : List PValue), vs = l1 ++ v :: l2 ++ w :: l3 ∧ pveq w v = true := by
  induction vs with
  | nil =>
      simp only [hasDupVals]
      constructor
      · intro h; cases h
      · rintro ⟨l1, v, l2, w, l3, h, _⟩
        rcases l1 with _ | ⟨x, l1t⟩ <;> simp at h
  | cons v rest ih =>
      rw [hasDupVals]
      constructor
      · intro h
        rcases Bool.or_eq_true_iff.mp h with hany | hrest
        · obtain ⟨w, hw, hq⟩ := List.any_eq_true.mp hany
          obtain ⟨l2, l3, rfl⟩ := List.append_of_mem hw
          exact ⟨[], v, l2, w, l3, rfl, hq⟩
        · obtain ⟨l1, v1, l2, w, l3, heq, hq⟩ := ih.mp hrest
          exact ⟨v :: l1, v1, l2, w, l3, by simp [heq], hq⟩
      · rintro ⟨l1, v1, l2, w, l3, heq, hq⟩
        rcases l1 with _ | ⟨x, l1t⟩
        · simp only [List.nil_append, List.cons.injEq] at heq
          obtain ⟨rfl, rfl⟩ := heq
          refine Bool.or_eq_true_iff.mpr (Or.inl (List.any_eq_true.mpr ⟨w, ?_, hq⟩))
          exact List.mem_append_right l2 (List.mem_cons_self w l3)
        · simp only [List.cons_append, List.cons.injEq] at heq
          obtain ⟨rfl, heq2⟩ := heq
          exact Bool.or_eq_true_iff.mpr (Or.inr (ih.mpr ⟨l1t, v1, l2, w, l3, heq2, hq⟩))

theorem validate_eq_false_iff (field : String) (es : List PDict) :
    PebbleUniqueConstraint.validate field es = false ↔
      hasDupVals (fieldVals field es) = true := by
  rw [PebbleUniqueConstraint.validate, validateAux_eq_dupCheck,
    dupCheck_eq_false_iff]
  constructor
  · rintro (⟨v, _, hmem⟩ | h)
    · simp [pvmem] at hmem
    · exact h
  · intro h; exact Or.inr h

theorem ensure_idem (d : DataDict) : d.ensure.ensure = d.ensure := by
  rcases d with ⟨entOpt, flag⟩
  rcases entOpt with _ | e <;> simp [DataDict.ensure]

theorem totalGet_ensure (d : DataDict) : d.ensure.totalGet = d.totalGet := by
  rcases d with ⟨entOpt, flag⟩
  rcases entOpt with _ | e <;> simp [DataDict.ensure, DataDict.totalGet]

theorem insertData_fst (d : DataDict) (e : PDict) (ts : String) :
    (d.insertData e ts).1 = toString d.totalGet.1 := by
  rcases d with ⟨entOpt, flag⟩
  rcases entOpt with _ | ⟨totOpt, vals⟩
  · simp [DataDict.insertData, DataDict.ensure, DataDict.totalGet, DataDict.totalSet]
  · rcases totOpt with _ | n <;>
      simp [DataDict.insertData, DataDict.ensure, DataDict.totalGet, DataDict.totalSet]

theorem removeData_absent (d : DataDict) (k : String) (e : Entries) (n : Int)
    (h1 : d.entries = some e) (h2 : e.total = some n)
    (h3 : alget e.values k = none) :
    d.removeData k =
      .ok (false, { d with entries := some ⟨some ((e.values.length : Int) + 1), e.values⟩ }) := by
  obtain ⟨etot, evals⟩ := e
  simp only at h2 h3
  subst h2
  simp [DataDict.removeData, DataDict.ensure, DataDict.totalGet, DataDict.totalSet,
    h1, h3, alremove_notin evals k h3]

/-- Claim C1 (the code contradicts it): the claim states that after insert(e)
returns identifier k, get(k) returns e augmented with an _added_at field and
the observed total is one greater than before. In the source, get tests for a
"values" key at the TOP level of _data instead of inside _data["entries"]
(table.py 570, database.py 426), so on an ordinary container the test fails,
the statement self._data["entries"]["values"] = dict() erases every stored
entry, and the lookup raises KeyError. Concretely: on a fresh table, insert
returns "0" and stores the stamped entry, but get "0" raises KeyError("0"),
leaves the entries map empty, and the observed total drops to 0. -/
theorem claim_C1_get_raises_after_insert :
    let t0 : PebbleTable :=
      { created_at := "c", database := "dbx",
        data := { entries := some ⟨some 0, []⟩, hasTopValues := false },
        definition := [], identifier := "tid", metadata := [], name := "t",
        path := "/w/t.json", updated_at := "u" }
    let r := t0.insert [("x", PValue.int 1)] false "ts"
    r.1 = "0" ∧
    r.2.data.valuesOf =
      [("0", PValue.dict [("x", PValue.int 1), ("_added_at", PValue.str "ts")])] ∧
    (r.2.get "0").1 = Except.error (PyError.keyError "0") ∧
    (r.2.get "0").2.data.valuesOf = [] ∧
    ((r.2.get "0").2.data.totalGet).1 = 0 := by
  exact ⟨rfl, rfl, rfl, rfl, rfl⟩

/-- Claim C2 counterexample: an entry identifier assigned by an insert IS
assigned again by a later insert once a remove has happened. Insert twice
(identifiers "0" then "1"), remove "0", insert again: the new insert observes
total 1 and assigns identifier "1" a second time, overwriting the entry stored
by the second insert, so the surviving key set is exactly ["1"]. -/
theorem claim_C2_counterexample :
    let t0 : PebbleTable :=
      { created_at := "c", database := "dbx",
        data := { entries := some ⟨some 0, []⟩, hasTopValues := false },
        definition := [], identifier := "tid", metadata := [], name := "t",
        path := "/w/t.json", updated_at := "u" }
    let s1 := t0.insert [("x", PValue.int 1)] false "ts"
    let s2 := s1.2.insert [("y", PValue.int 2)] false "ts"
    s1.1 = "0" ∧ s2.1 = "1" ∧
    (match s2.2.remove "0" false "ts" with
     | .ok (res, t3) =>
         res = true ∧
         (t3.insert [("z", PValue.int 3)] false "ts").1 = "1" ∧
         ((t3.insert [("z", PValue.int 3)] false "ts").2.data.valuesOf.map Prod.fst) = ["1"]
     | .error _ => False) := by
  exact ⟨rfl, rfl, rfl, rfl, rfl⟩

/-- Claim C2 amended: the identifier assigned by each insert equals the
observed total of the container at insertion time (the size of the values
map, as the total getter recomputes it), interpreted as a decimal string, on
both the table and the database variant. The non-reuse half of the original
claim is refuted by claim_C2_counterexample: after a removal the observed
total shrinks and an already-assigned identifier is handed out again. -/
theorem claim_C2_amended_identifier_is_total (t : PebbleTable)
    (db : PebbleDatabase) (entry1 entry2 : PDict) (b1 b2 : Bool)
    (ts1 ts2 : String) :
    (t.insert entry1 b1 ts1).1 = toString t.data.totalGet.1 ∧
    (db.insertDb entry2 b2 ts2).1 = toString db.data.totalGet.1 := by
  constructor
  · have h1 := insertData_fst t.data entry1 ts1
    rcases h : t.data.insertData entry1 ts1 with ⟨i, d⟩
    rw [h] at h1
    simpa [PebbleTable.insert, h] using h1
  · have h1 := insertData_fst db.data entry2 ts2
    rcases h : db.data.insertData entry2 ts2 with ⟨i, d⟩
    rw [h] at h1
    simpa [PebbleDatabase.insertDb, h] using h1

/-- Claim C3 (the code contradicts it on the table variant): commit followed
by load round-trips entries, metadata, name and identifier for the DATABASE
variant, whose loader reads the committed keys; but PebbleTableLoader.load
feeds the builder from the key "data" (table.py 1620), which to_dict never
writes, so every loaded table starts from the default empty entries skeleton:
after committing a table holding one entry to a fresh writable path, the load
from that path yields a table whose metadata, name and identifier match but
whose entries map is empty, unlike the original. (Had the table carried an
empty database string, the default of to_dict, the load would instead raise
ValueError inside with_database, table.py 1308-1311.) -/
theorem claim_C3_commit_load_round_trip :
    let db0 : PebbleDatabase :=
      { created_at := "c",
        data := { entries := some ⟨some 1, [("0", PValue.dict [("a", PValue.int 1)])]⟩,
                  hasTopValues := false },
        identifier := "dbid", metadata := [("m", PValue.int 5)], name := "db",
        path := "/w/db.json", updated_at := "u" }
    let fs0 : FS := { files := [], writable := fun _ => true }
    let fs1 := (PebbleCommitService.commit (db0.to_dict).1 fs0).1
    let t0 : PebbleTable :=
      { created_at := "c", database := "dbx",
        data := { entries := some ⟨some 1, [("0", PValue.dict [("x", PValue.int 1)])]⟩,
                  hasTopValues := false },
        definition := [], identifier := "tid", metadata := [("m", PValue.int 5)],
        name := "t", path := "/w/t.json", updated_at := "u" }
    let fs2 := (PebbleCommitService.commit (t0.to_dict).1 fs0).1
    (match PebbleDatabaseLoader.load fs1 "/w/db.json" "now" with
     | .ok db1 =>
         db1.data.valuesOf = db0.data.valuesOf ∧ db1.metadata = db0.metadata ∧
         db1.name = db0.name ∧ db1.identifier = db0.identifier
     | .error _ => False) ∧
    (match PebbleTableLoader.load fs2 "/w/t.json" "now" "uu" with
     | .ok t1 =>
         t1.metadata = t0.metadata ∧ t1.name = t0.name ∧
         t1.identifier = t0.identifier ∧
         t1.data.valuesOf = [] ∧ t0.data.valuesOf ≠ []
     | .error _ => False) := by
  exact ⟨⟨rfl, rfl, rfl, rfl⟩, ⟨rfl, rfl, rfl, rfl, by simp [DataDict.valuesOf]⟩⟩

/-- Claim C4: the commit merge is merge_dicts, and for dicts with distinct
keys (every Python dict) its per-key outcome is exactly the specified one: a
key untouched by the snapshot keeps the prior value, a key absent from the
prior state takes the new value, two nested dicts merge recursively, and
otherwise the new value wins at the leaf (a stored None also takes the new
value, since dict .get conflates absence with None). In the concrete scenario,
committing a snapshot holding only entry "1" over an on-disk state holding
only entry "0" succeeds and leaves an on-disk document whose entries values
map contains both "0" and "1". -/
theorem claim_C4_commit_merge :
    (∀ (new old : PDict) (k : String), (new.map Prod.fst).Nodup →
        alget (merge_dicts new old) k = mergeSpec (alget new k) (alget old k)) ∧
    (let snap : PDict :=
       [("path", PValue.str "/w/x.json"),
        ("entries", PValue.dict
          [("values", PValue.dict [("1", PValue.dict [("b", PValue.int 2)])])])]
     let old : PDict :=
       [("path", PValue.str "/w/x.json"),
        ("entries", PValue.dict
          [("values", PValue.dict [("0", PValue.dict [("a", PValue.int 1)])])])]
     let fs : FS := { files := [("/w/x.json", some (PValue.dict old))],
                      writable := fun _ => true }
     let r := PebbleCommitService.commit snap fs
     r.2 = .ok () ∧
     (match alget r.1.files "/w/x.json" with
      | some (some (PValue.dict d)) =>
          match alget d "entries" with
          | some (PValue.dict ed) =>
              match alget ed "values" with
              | some (PValue.dict vs) =>
                  (alget vs "0").isSome = true ∧ (alget vs "1").isSome = true
              | _ => False
          | _ => False
      | _ => False)) := by
  exact ⟨fun new old k h => merge_dicts_alget new k h old, rfl, rfl, rfl⟩

/-- Witness for claim_C4_commit_merge: the universal part applied at a
concrete one-binding snapshot over a disjoint one-binding prior state. -/
theorem claim_C4_commit_merge_witness :
    alget (merge_dicts [("a", PValue.int 1)] [("b", PValue.int 2)]) "a" =
      mergeSpec (alget [("a", PValue.int 1)] "a")
        (alget [("b", PValue.int 2)] "a") :=
  claim_C4_commit_merge.1 [("a", PValue.int 1)] [("b", PValue.int 2)] "a"
    (by decide)

/-- Claim C5 counterexample: a failing commit step is NOT always surfaced as
the dedicated commit error. With no prior state at an unwritable target path,
the write primitives report their failure only through boolean results, which
the commit service discards (core/utils.py 71-80), so commit returns
successfully while nothing was written: the failure is silently swallowed. -/
theorem claim_C5_counterexample :
    let snap : PDict := [("path", PValue.str "/w/a.json"), ("name", PValue.str "a")]
    let fs : FS := { files := [], writable := fun _ => false }
    (PebbleCommitService.commit snap fs).2 = .ok () ∧
    (PebbleCommitService.commit snap fs).1.files = [] := by
  exact ⟨rfl, rfl⟩

/-- Claim C5 amended: any EXCEPTION raised inside the commit try block is
re-raised as the dedicated commit error and leaves the file system (and the
in-memory snapshot, which commit never writes to) unchanged; concretely, when
prior state exists and the temporary path rejects writes, the temporary file
is missing at rename time, the rename raises, and commit returns the commit
error with the file system untouched. A write failure reported only through
the boolean result the source discards (the fresh-state branch) is instead
silently swallowed, as claim_C5_counterexample shows. -/
theorem claim_C5_amended_exception_failures_surface (doc old : PDict)
    (p : String) (fs : FS)
    (hp : alget doc "path" = some (PValue.str p))
    (hfile : alget fs.files p = some (some (PValue.dict old)))
    (htmp : alget fs.files (tmpPath p) = none)
    (hw : fs.writable (tmpPath p) = false) :
    PebbleCommitService.commit doc fs = (fs, .error CommitError.commitError) := by
  simp [PebbleCommitService.commit, FS.read_file_if_not_exists, FS.pathExists,
    FS.read_file, FS.write_file_if_not_exists, FS.create_file, FS.write_file,
    FS.renameFile, hp, hfile, htmp, hw]

/-- Witness for claim_C5_amended_exception_failures_surface at a concrete
one-file file system whose paths all reject writes. -/
theorem claim_C5_amended_witness :
    PebbleCommitService.commit
        [("path", PValue.str "/w/x.json"), ("k", PValue.int 1)]
        { files := [("/w/x.json", some (PValue.dict [("k", PValue.int 0)]))],
          writable := fun _ => false } =
      ({ files := [("/w/x.json", some (PValue.dict [("k", PValue.int 0)]))],
         writable := fun _ => false }, .error CommitError.commitError) :=
  claim_C5_amended_exception_failures_surface
    [("path", PValue.str "/w/x.json"), ("k", PValue.int 1)]
    [("k", PValue.int 0)] "/w/x.json" _ rfl rfl rfl rfl

/-- Claim C6 (the code contradicts it on the database variant): both variants
raise KeyError for a missing identifier, and the table variant merges the
partial entry field by field into the stored entry and advances updated_at;
but PebbleDatabase.update executes
self._data["entries"]["values"].update(entry) (database.py 1004), merging the
partial entry into the VALUES MAP instead of the stored entry. Concretely,
updating entry "0" with the partial entry b=2 on a table yields the merged
stored entry, while on a database it leaves the stored entry untouched and
adds a stray top-level binding "b" to the values map. -/
theorem claim_C6_update_field_merge :
    let t0 : PebbleTable :=
      { created_at := "c", database := "dbx",
        data := { entries := some ⟨some 1, [("0", PValue.dict [("a", PValue.int 1)])]⟩,
                  hasTopValues := false },
        definition := [], identifier := "tid", metadata := [], name := "t",
        path := "/w/t.json", updated_at := "u" }
    let db0 : PebbleDatabase :=
      { created_at := "c",
        data := { entries := some ⟨some 1, [("0", PValue.dict [("a", PValue.int 1)])]⟩,
                  hasTopValues := false },
        identifier := "dbid", metadata := [], name := "db",
        path := "/w/db.json", updated_at := "u" }
    (match t0.update [("b", PValue.int 2)] "0" false "ts" with
     | .ok (res, t1) =>
         res = true ∧
         t1.data.valuesOf =
           [("0", PValue.dict [("a", PValue.int 1), ("b", PValue.int 2)])] ∧
         t1.updated_at = "ts"
     | .error _ => False) ∧
    (match db0.update [("b", PValue.int 2)] "0" false "ts" with
     | .ok (res, d1) =>
         res = true ∧
         d1.data.valuesOf =
           [("0", PValue.dict [("a", PValue.int 1)]), ("b", PValue.int 2)] ∧
         d1.updated_at = "ts"
     | .error _ => False) ∧
    t0.update [("b", PValue.int 2)] "9" false "ts" =
      .error (PyError.keyError "9") ∧
    db0.update [("b", PValue.int 2)] "9" false "ts" =
      .error (PyError.keyError "9") := by
  exact ⟨⟨rfl, rfl, rfl⟩, ⟨rfl, rfl, rfl⟩, rfl, rfl⟩

/-- Claim C7 (the code contradicts it): when every identifier is present and
removed, remove_in_bulk returns the conjunction of the individual results;
but when at least one removal returns False, both variants append the boolean
False to the errors list and then evaluate the message of a ValueError they
never raise, and that evaluation joins a list of booleans with a string
separator, raising TypeError: remove_in_bulk of a missing identifier raises
TypeError instead of returning false. -/
theorem claim_C7_remove_bulk_type_error :
    let t0 : PebbleTable :=
      { created_at := "c", database := "dbx",
        data := { entries := some ⟨some 0, []⟩, hasTopValues := false },
        definition := [], identifier := "tid", metadata := [], name := "t",
        path := "/w/t.json", updated_at := "u" }
    let db0 : PebbleDatabase :=
      { created_at := "c",
        data := { entries := some ⟨some 0, []⟩, hasTopValues := false },
        identifier := "dbid", metadata := [], name := "db",
        path := "/w/db.json", updated_at := "u" }
    let t1 : PebbleTable :=
      { t0 with data := { entries := some ⟨some 1, [("0", PValue.dict [("a", PValue.int 1)])]⟩,
                          hasTopValues := false } }
    t0.remove_in_bulk ["0"] "ts" =
      .error (PyError.typeError "sequence item 0: expected str instance, bool found") ∧
    db0.remove_in_bulk ["0"] "ts" =
      .error (PyError.typeError "sequence item 0: expected str instance, bool found") ∧
    (match t1.remove_in_bulk ["0"] "ts" with
     | .ok (res, _) => res = true
     | .error _ => False) := by
  exact ⟨rfl, rfl, rfl⟩

/-- Claim C8: on both variants, removing an identifier that is not present
returns false, leaves the entries mapping unchanged, and the observed total
(read through the total property, which recomputes it from the size of the
values map) after the call equals the observed total before; the stray
self.total = self.total + 1 executed by remove only writes a stored counter
that the next observation overwrites. Stated for containers in the standard
shape, with the "entries" and "total" keys present. -/
theorem claim_C8_remove_missing (t : PebbleTable) (db : PebbleDatabase)
    (k ts : String) (et ed : Entries) (nt nd : Int)
    (h1 : t.data.entries = some et) (h2 : et.total = some nt)
    (h3 : alget et.values k = none)
    (h4 : db.data.entries = some ed) (h5 : ed.total = some nd)
    (h6 : alget ed.values k = none) :
    (∃ t2, t.remove k false ts = .ok (false, t2) ∧
        t2.data.valuesOf = et.values ∧
        t2.data.totalGet.1 = t.data.totalGet.1) ∧
    (∃ d2, db.remove k false ts = .ok (false, d2) ∧
        d2.data.valuesOf = ed.values ∧
        d2.data.totalGet.1 = db.data.totalGet.1) := by
  constructor
  · refine ⟨{ t with
        data := { t.data with
          entries := some ⟨some ((et.values.length : Int) + 1), et.values⟩ },
        updated_at := ts }, ?_, ?_, ?_⟩
    · simp [PebbleTable.remove, removeData_absent t.data k et nt h1 h2 h3]
    · simp [DataDict.valuesOf]
    · simp [DataDict.totalGet, DataDict.ensure, h1, h2]
  · refine ⟨{ db with
        data := { db.data with
          entries := some ⟨some ((ed.values.length : Int) + 1), ed.values⟩ },
        updated_at := ts }, ?_, ?_, ?_⟩
    · simp [PebbleDatabase.remove, removeData_absent db.data k ed nd h4 h5 h6]
    · simp [DataDict.valuesOf]
    · simp [DataDict.totalGet, DataDict.ensure, h4, h5]

/-- Witness for claim_C8_remove_missing: a fresh empty table and database and
the absent identifier "z". -/
theorem claim_C8_remove_missing_witness :
    let t0 : PebbleTable :=
      { created_at := "c", database := "dbx",
        data := { entries := some ⟨some 0, []⟩, hasTopValues := false },
        definition := [], identifier := "tid", metadata := [], name := "t",
        path := "/w/t.json", updated_at := "u" }
    let db0 : PebbleDatabase :=
      { created_at := "c",
        data := { entries := some ⟨some 0, []⟩, hasTopValues := false },
        identifier := "dbid", metadata := [], name := "db",
        path := "/w/db.json", updated_at := "u" }
    (∃ t2, t0.remove "z" false "ts" = .ok (false, t2) ∧
        t2.data.valuesOf = ([] : List (String × PValue)) ∧
        t2.data.totalGet.1 = t0.data.totalGet.1) ∧
    (∃ d2, db0.remove "z" false "ts" = .ok (false, d2) ∧
        d2.data.valuesOf = ([] : List (String × PValue)) ∧
        d2.data.totalGet.1 = db0.data.totalGet.1) :=
  claim_C8_remove_missing _ _ "z" "ts" ⟨some 0, []⟩ ⟨some 0, []⟩ 0 0
    rfl rfl rfl rfl rfl rfl

/-- Claim C9: the unique constraint validation returns false exactly when,
among the non-null values of the field across the batch (in order, entries
with an absent or None value ignored), some later value equals an earlier one
under Python equality; the loop short-circuits at the first such duplicate.
In particular two entries sharing the same non-null value fail, and a batch
whose duplicates involve only null values passes. -/
theorem claim_C9_unique_validate :
    (∀ (field : String) (entries : List PDict),
        PebbleUniqueConstraint.validate field entries = false ↔
          ∃ (l1 : List PValue) (v : PValue) (l2 : List PValue) (w : PValue)
            (l3 : List PValue),
            fieldVals field entries = l1 ++ v :: l2 ++ w :: l3 ∧
            pveq w v = true) ∧
    PebbleUniqueConstraint.validate "email"
      [[("email", PValue.str "a")], [("email", PValue.str "a")]] = false ∧
    PebbleUniqueConstraint.validate "email"
      [[("email", PValue.str "a")], [("email", PValue.null)],
       [("email", PValue.str "b")]] = true := by
  refine ⟨fun field es => ?_, rfl, rfl⟩
  rw [validate_eq_false_iff, hasDupVals_iff]

/-- Claim C10: set_metadata writes into the copy returned by the metadata
property and discards it, so the stored metadata is unchanged on both
variants, and a following get_metadata for a key that was not already stored
returns the supplied default rather than the written value. -/
theorem claim_C10_set_metadata_noop (t : PebbleTable) (db : PebbleDatabase)
    (k : String) (v dflt : PValue)
    (ht : alget t.metadata k = none) (hd : alget db.metadata k = none) :
    t.set_metadata k v = t ∧
    (t.set_metadata k v).get_metadata k dflt = dflt ∧
    db.set_metadata k v = db ∧
    (db.set_metadata k v).get_metadata k dflt = dflt := by
  refine ⟨rfl, ?_, rfl, ?_⟩
  · simp [PebbleTable.set_metadata, PebbleTable.get_metadata, ht]
  · simp [PebbleDatabase.set_metadata, PebbleDatabase.get_metadata, hd]

/-- Witness for claim_C10_set_metadata_noop: fresh containers with empty
metadata, key "a", value 1, default 7. -/
theorem claim_C10_set_metadata_noop_witness :
    let t0 : PebbleTable :=
      { created_at := "c", database := "dbx",
        data := { entries := some ⟨some 0, []⟩, hasTopValues := false },
        definition := [], identifier := "tid", metadata := [], name := "t",
        path := "/w/t.json", updated_at := "u" }
    let db0 : PebbleDatabase :=
      { created_at := "c",
        data := { entries := some ⟨some 0, []⟩, hasTopValues := false },
        identifier := "dbid", metadata := [], name := "db",
        path := "/w/db.json", updated_at := "u" }
    t0.set_metadata "a" (PValue.int 1) = t0 ∧
    (t0.set_metadata "a" (PValue.int 1)).get_metadata "a" (PValue.int 7) =
      PValue.int 7 ∧
    db0.set_metadata "a" (PValue.int 1) = db0 ∧
    (db0.set_metadata "a" (PValue.int 1)).get_metadata "a" (PValue.int 7) =
      PValue.int 7 :=
  claim_C10_set_metadata_noop _ _ "a" (PValue.int 1) (PValue.int 7) rfl rfl

end PebbleDB
